import Mathlib

/-!
Verification of the AKAS retrieval-augmented-generation backend
(`src/akas/backend`): a shallow embedding of its data model and handlers,
with theorems settling the behavioural claims of the specification.

External collaborators (langchain loaders/splitter, FAISS, LLM providers)
are modelled as parameters or by their spec contracts; the repository's own
Python code (ingest.py, enhanced_ingest.py, rag_pipeline.py,
enhanced_rag_pipeline.py, main.py, main_v2.py, enhanced_main.py) is embedded
faithfully, statement by statement.
-/

deriving instance DecidableEq for Except

namespace AKAS

/- ### Shared data model -/

/-- A langchain `Document`: text plus `source` metadata.  Wall-clock
metadata (`ingested_at`, `processed_at`) is elided from the embedding. -/
structure Doc where
  text : String
  source : String
deriving DecidableEq, Repr

/-- A chunk produced by the text splitter: a piece of a document's text
with the inherited `source` metadata. -/
structure Chunk where
  text : String
  source : String
deriving DecidableEq, Repr

/-- Outcome of the external document loader on one file: the loaded
documents, or the exception message it raised. -/
abbrev LoadResult := Except String (List Doc)

/-- One entry of the `docs/` directory: the file name together with what
the (external) loader for its format would return for it. -/
abbrev DirFile := String × LoadResult

/-- A FAISS vector store, modelled by the embedding records it holds;
the float vectors themselves are produced by the external embedding
provider and are elided (the spec fixes only which chunks are indexed). -/
abbrev VectorStore := List Chunk

/-- A `RetrievalQA` chain, determined by the vector store its retriever
wraps.  Running the chain calls the external LLM; handlers take the run
outcome as a parameter of type `ChainRunner`. -/
structure QAChain where
  store : VectorStore
deriving DecidableEq

/-- The external behaviour of `qa_chain.run`: an answer string, or the
exception message the LLM/retrieval call raised. -/
abbrev ChainRunner := QAChain → String → Except String String

/-- A FastAPI `HTTPException`: status code and detail message. -/
structure HTTPError where
  code : Nat
  detail : String
deriving DecidableEq, Repr

/-- Python's `str.endswith(suffix)`, expressed over the character
sequence. -/
def strEndsWith (s suffix : String) : Bool := suffix.data.isSuffixOf s.data

/-- Python's `str.lower()`, expressed over the character sequence. -/
def lowerStr (s : String) : String := ⟨s.data.map Char.toLower⟩

/- ### rag_pipeline.py -/

/-- The function `build_vector_store(docs)`: `FAISS.from_documents` —
the index holding exactly the given chunks. -/
def build_vector_store (docs : List Chunk) : VectorStore := docs

/-- The function `get_qa_chain(vector_store)`: a `RetrievalQA` chain over the store's
default retriever. -/
def get_qa_chain (vs : VectorStore) : QAChain := ⟨vs⟩

/- ### enhanced_rag_pipeline.py -/

/-- The method `EnhancedRAGPipeline.load_vector_store`:
`try: return FAISS.load_local(...) except: return None`.
The argument is the outcome of the external `FAISS.load_local` call. -/
def load_vector_store (loadResult : Except String VectorStore) : Option VectorStore :=
  match loadResult with
  | .ok vs => some vs
  | .error _ => none

/-- The method `EnhancedRAGPipeline.get_qa_chain(vector_store, search_type, k)`:
the retriever configuration it installs. -/
structure EnhancedRetrieverConfig where
  store : VectorStore
  search_type : String
  k : Nat
deriving DecidableEq

/-- The method `EnhancedRAGPipeline.get_qa_chain`: records the store and the
retriever's `search_type`/`k` configuration (defaults `"similarity"`, 4). -/
def get_qa_chain_enhanced (vs : VectorStore) (search_type : String) (k : Nat) :
    EnhancedRetrieverConfig :=
  ⟨vs, search_type, k⟩

/- ### ingest.py -/

/-- The loop of `ingest_documents(doc_dir)` in ingest.py: only `.pdf`
files are loaded, and a loader exception propagates (there is no
try/except), aborting the whole batch. -/
def loadPdfDocs : List DirFile → Except String (List Doc)
  | [] => .ok []
  | (fname, res) :: rest =>
    if strEndsWith fname ".pdf" then
      match res with
      | .error e => .error e
      | .ok ds =>
        match loadPdfDocs rest with
        | .error e => .error e
        | .ok tail => .ok (ds ++ tail)
    else loadPdfDocs rest

/-- The function `ingest_documents(doc_dir)` of ingest.py: load every `.pdf` in the
directory, then split the collected documents.  The external
`RecursiveCharacterTextSplitter(500, 50)` is the `chunker` parameter. -/
def ingest_documents_v1 (chunker : Doc → List Chunk) (dir : List DirFile) :
    Except String (List Chunk) :=
  (loadPdfDocs dir).map (fun docs => docs.flatMap chunker)

/- ### enhanced_ingest.py -/

/-- The extension dispatch of `EnhancedDocumentIngestor.ingest_documents`:
`.pdf`, `.txt`, `.docx`, `.xlsx` (lower-cased) get a loader; anything else
is skipped by `continue`. -/
def supportedLoader (fname : String) : Bool :=
  strEndsWith (lowerStr fname) ".pdf" || strEndsWith (lowerStr fname) ".txt" ||
  strEndsWith (lowerStr fname) ".docx" || strEndsWith (lowerStr fname) ".xlsx"

/-- The per-file loop of `EnhancedDocumentIngestor.ingest_documents`:
each supported file's loader runs inside `try/except`; on an exception the
error is printed (`Error loading {fname}: {e}`) and the loop continues.
Returns the collected documents and the printed error reports. -/
def collectDocs : List DirFile → List Doc × List String
  | [] => ([], [])
  | (fname, res) :: rest =>
    let acc := collectDocs rest
    if supportedLoader fname then
      match res with
      | .ok ds => (ds ++ acc.1, acc.2)
      | .error e => (acc.1, ("Error loading " ++ fname ++ ": " ++ e) :: acc.2)
    else acc

/-- The method `EnhancedDocumentIngestor.ingest_documents(doc_dir)`: collect the
documents of all loadable supported files, then split them.  The external
`RecursiveCharacterTextSplitter(1000, 200)` is the `chunker` parameter;
the timestamp/file-type metadata tagging loop is elided. -/
def ingest_documents_enhanced (chunker : Doc → List Chunk) (dir : List DirFile) :
    List Chunk × List String :=
  ((collectDocs dir).1.flatMap chunker, (collectDocs dir).2)

/- ### Chunk Splitter (spec section 4.1) -/

/-- Modelled from the spec: the Chunk Splitter contract of section 4.1.
The actual splitting is delegated to the external langchain
`RecursiveCharacterTextSplitter` (configured `(500, 50)` in ingest.py and
`(1000, 200)` in enhanced_ingest.py) and is not code of this repository.
Per the spec: non-empty chunks covering the full input, each chunk after
the first sharing exactly `ov` characters with its predecessor; split
points may fall mid-word; `ov ≥ cs` is a configuration error (here the
degenerate guard stops recursion). -/
def splitText (cs ov : Nat) (t : List Char) : List (List Char) :=
  if t.isEmpty then []
  else if h : t.length ≤ cs ∨ cs ≤ ov then [t]
  else t.take cs :: splitText cs ov (t.drop (cs - ov))
termination_by t.length
decreasing_by
  simp only [not_or, not_le] at h
  simp only [List.length_drop]
  omega

/-- Concatenating splitter output with the overlaps removed: the first
chunk whole, every later chunk with its first `ov` characters dropped. -/
def reassemble (ov : Nat) : List (List Char) → List Char
  | [] => []
  | c :: rest => c ++ (rest.map (fun d => d.drop ov)).flatten

/- ### Vector Index search (spec section 4.3) -/

/-- An Embedding Record of the Vector Index: a chunk with its embedding
vector (vectors abstracted to `List Int`; the embedding provider is
external). -/
structure EmbeddingRecord where
  chunk : Chunk
  vec : List Int
deriving DecidableEq

/-- Modelled from the spec: `search(query_text, k, search_type)` of the
Vector Index contract (section 4.3) — the concrete nearest-neighbour
search lives in the external FAISS library, not in this repository.
The query is embedded (`embed`) and each record scored by the distance
function `d`; the records are ordered by increasing distance and the
first `k` returned. -/
def vectorSearch (embed : String → List Int) (d : List Int → List Int → Int)
    (index : List EmbeddingRecord) (q : String) (k : Nat) :
    List (EmbeddingRecord × Int) :=
  (((index.map (fun r => (r, d r.vec (embed q)))).mergeSort
    (fun a b => decide (a.2 ≤ b.2))).take k)

/- ### main.py -/

/-- The module-level globals of main.py (`vector_store`, `qa_chain`,
both initialised to `None`), together with the `docs/` directory the
handlers read and write. -/
structure AppState where
  vector_store : Option VectorStore
  qa_chain : Option QAChain
  docs_dir : List DirFile
deriving DecidableEq

/-- What the `/query/` handler of main.py returns: the
`{"error": "No data ingested yet."}` body, an answer body, or a
propagated exception (FastAPI turns it into a 500). -/
inductive QueryResult where
  | notReady : QueryResult
  | answer : String → QueryResult
  | serverError : String → QueryResult
deriving DecidableEq

/-- The `/ingest/` handler of main.py: save the uploaded file into
`docs/`, re-run `ingest_documents("docs")` over the whole directory,
rebuild the vector store and QA chain from the result, and replace the
globals.  A loader exception propagates after the file was saved, leaving
the globals untouched. -/
def ingest_main (chunker : Doc → List Chunk) (st : AppState) (upload : DirFile) :
    AppState × Except String String :=
  let dir := st.docs_dir ++ [upload]
  match ingest_documents_v1 chunker dir with
  | .error e => ({ st with docs_dir := dir }, .error e)
  | .ok chunks =>
    let vs := build_vector_store chunks
    ({ vector_store := some vs, qa_chain := some (get_qa_chain vs), docs_dir := dir },
     .ok upload.1)

/-- The `/query/` handler of main.py: `if not qa_chain: return {"error":
"No data ingested yet."}`, else `qa_chain.run(q)` (whose external outcome
is given by `run`; an exception propagates). -/
def query_main (run : ChainRunner) (st : AppState) (q : String) : QueryResult :=
  match st.qa_chain with
  | none => .notReady
  | some chain =>
    match run chain q with
    | .ok a => .answer a
    | .error e => .serverError e

/- ### main_v2.py -/

/-- main_v2.py `QueryRequest`: `question`, `llm_provider` (default
`"openai"`), `search_type` (default `"similarity"`), `k: Optional[int] = 4`
— note: no range constraint on `k`. -/
structure QueryRequestV2 where
  question : String
  llm_provider : String
  search_type : String
  k : Int
deriving DecidableEq

/-- The default value of the `k` field of main_v2.py's `QueryRequest`. -/
def queryRequestV2DefaultK : Int := 4

/-- Parsing the optional `k` field of main_v2.py's `QueryRequest`: any
integer is accepted (the model declares no `ge`/`le` constraint), and an
omitted `k` takes the default 4. -/
def parseKV2 (given : Option Int) : Int := given.getD queryRequestV2DefaultK

/-- main_v2.py `UserFeedback`: `query_id`, `rating: int` (the `# 1-5`
comment carries no validation), optional `comment`. -/
structure UserFeedback where
  query_id : String
  rating : Int
  comment : Option String
deriving DecidableEq

/-- An entry of main_v2.py's in-memory `query_logs` list. -/
structure QueryLog where
  query_id : String
  question : String
  answer : String
  llm_provider : String
deriving DecidableEq

/-- An entry of main_v2.py's in-memory `feedback_data` list. -/
structure FeedbackEntry where
  feedback_id : String
  query_id : String
  rating : Int
  comment : Option String
deriving DecidableEq

/-- The module-level globals of main_v2.py (`vector_store`, `qa_chain`,
`query_logs`, `feedback_data`), plus the `docs/` directory. -/
structure V2State where
  vector_store : Option VectorStore
  qa_chain : Option QAChain
  query_logs : List QueryLog
  feedback_data : List FeedbackEntry
  docs_dir : List DirFile
deriving DecidableEq

/-- Lines 143–147 of main_v2.py: `query_logs.append(query_log)` followed
by `if len(query_logs) > 100: query_logs = query_logs[-100:]`. -/
def appendLogV2 (logs : List QueryLog) (r : QueryLog) : List QueryLog :=
  let logs := logs ++ [r]
  if logs.length > 100 then logs.drop (logs.length - 100) else logs

/-- Lines 173–177 of main_v2.py: `feedback_data.append(entry)` followed
by `if len(feedback_data) > 100: feedback_data = feedback_data[-100:]`. -/
def appendFeedbackV2 (l : List FeedbackEntry) (r : FeedbackEntry) : List FeedbackEntry :=
  let l := l ++ [r]
  if l.length > 100 then l.drop (l.length - 100) else l

/-- The `/v2/ingest/` handler of main_v2.py: save every uploaded file
into `docs/`, run `ingest_documents("docs")` (the `.pdf`-only
ingest.py function it imports) over the whole directory, and — only `if
docs:` is non-empty — rebuild and replace the vector store and QA chain.
A processing exception becomes a 500 after the files were saved. -/
def enhanced_ingest (chunker : Doc → List Chunk) (st : V2State)
    (uploads : List DirFile) : V2State × Except HTTPError Nat :=
  let dir := st.docs_dir ++ uploads
  match ingest_documents_v1 chunker dir with
  | .error e =>
    ({ st with docs_dir := dir }, .error ⟨500, "Processing error: " ++ e⟩)
  | .ok chunks =>
    if chunks.isEmpty then
      ({ st with docs_dir := dir }, .ok chunks.length)
    else
      let vs := build_vector_store chunks
      ({ st with docs_dir := dir,
                 vector_store := some vs,
                 qa_chain := some (get_qa_chain vs) },
       .ok chunks.length)

/-- The response body of `/v2/query/` (`QueryResponse`): answer, sources
(always `[]` in the source), and the query id; `confidence` is the
constant 0.85 and `processing_time` is wall clock, both elided. -/
structure QueryResponseV2 where
  answer : String
  sources : List String
  query_id : String
deriving DecidableEq

/-- The `/v2/query/` handler of main_v2.py: fail with 400 when
`qa_chain` is unset; otherwise run the chain (external outcome via
`run`), on success append the query log (capped at the last 100) and
return the answer, on an exception fail with 500 leaving every global
untouched. -/
def enhanced_query (run : ChainRunner) (st : V2State) (req : QueryRequestV2)
    (query_id : String) : Except HTTPError QueryResponseV2 × V2State :=
  match st.qa_chain with
  | none =>
    (.error ⟨400, "No data ingested yet. Please upload documents first."⟩, st)
  | some chain =>
    match run chain req.question with
    | .error e => (.error ⟨500, "Query error: " ++ e⟩, st)
    | .ok ans =>
      (.ok ⟨ans, [], query_id⟩,
       { st with query_logs :=
           appendLogV2 st.query_logs ⟨query_id, req.question, ans, req.llm_provider⟩ })

/-- The `/v2/feedback/` handler of main_v2.py: build the feedback entry
from the request (no validation of `rating` anywhere) and append it to
`feedback_data`, capped at the last 100. -/
def submit_feedback_v2 (st : V2State) (fb : UserFeedback) (feedback_id : String) :
    V2State :=
  { st with feedback_data :=
      appendFeedbackV2 st.feedback_data ⟨feedback_id, fb.query_id, fb.rating, fb.comment⟩ }

/- ### enhanced_main.py -/

/-- The external `RAGPipeline.query(query, max_results)` call of
enhanced_main.py (the `rag_pipeline` module it imports does not define
`RAGPipeline`; its behaviour is a parameter): an answer/sources result
or an exception message. -/
structure RagResult where
  response : String
  sources : List String
deriving DecidableEq

/-- The behaviour of the `rag_pipeline.query` external call. -/
abbrev RagRunner := String → Int → Except String RagResult

/-- enhanced_main.py `QueryRequest`: `query` (1–1000 chars),
`max_results: Optional[int] = Field(default=5, ge=1, le=20)`,
`include_metadata` (default `False`). -/
structure QueryRequestEnh where
  query : String
  max_results : Int
  include_metadata : Bool
deriving DecidableEq

/-- Pydantic's handling of the `max_results` field of enhanced_main.py's
`QueryRequest` (`Field(default=5, ge=1, le=20)`): an omitted value
defaults to 5; a supplied value is accepted only in 1..20, otherwise the
request is rejected with a validation error before the handler runs. -/
def parseMaxResults (given : Option Int) : Except String Int :=
  match given with
  | none => .ok 5
  | some v => if 1 ≤ v ∧ v ≤ 20 then .ok v else .error "validation error"

/-- Pydantic's validation of the `rating` field of enhanced_main.py's
`FeedbackRequest` (`Field(..., ge=1, le=5)`). -/
def feedbackRatingValid (rating : Int) : Bool := 1 ≤ rating && rating ≤ 5

/-- An entry of enhanced_main.py's in-memory `query_history` list
(`processing_time` and `timestamp` are wall clock, elided). -/
structure QueryRecord where
  query : String
  response : String
  user : Option String
deriving DecidableEq

/-- An entry of enhanced_main.py's in-memory `feedback_data` list. -/
structure FeedbackRecord where
  query : String
  response : String
  rating : Int
  comment : Option String
  user : Option String
deriving DecidableEq

/-- The module-level globals of enhanced_main.py: `rag_pipeline` (set by
the lifespan hook, `None` if initialisation failed), `query_history`,
`feedback_data`, and the counters of `system_stats`. -/
structure EnhState where
  rag_pipeline : Option Unit
  query_history : List QueryRecord
  feedback_data : List FeedbackRecord
  total_documents : Nat
  total_queries : Nat
deriving DecidableEq

/-- Lines 303–307 of enhanced_main.py: `query_history.append(record)`
followed by `if len(query_history) > 100: query_history.pop(0)`. -/
def appendHistoryEnh (hist : List QueryRecord) (r : QueryRecord) : List QueryRecord :=
  let hist := hist ++ [r]
  if hist.length > 100 then hist.tail else hist

/-- Lines 358–362 of enhanced_main.py: `feedback_data.append(record)`
followed by `if len(feedback_data) > 1000: feedback_data.pop(0)`. -/
def appendFeedbackEnh (l : List FeedbackRecord) (r : FeedbackRecord) :
    List FeedbackRecord :=
  let l := l ++ [r]
  if l.length > 1000 then l.tail else l

/-- The response body of `/query` in enhanced_main.py (wall-clock fields
elided). -/
structure QueryResponseEnh where
  query : String
  response : String
  sources : List String
deriving DecidableEq

/-- The `/query` handler of enhanced_main.py (`process_query`): inside
`try`, a missing `rag_pipeline` raises a 503 which the blanket
`except Exception` rewraps as a 500; otherwise `rag_pipeline.query` runs
(external outcome via `run`); on success the stats counters and the
capped `query_history` are updated; on an exception a 500 is raised with
every global untouched. -/
def process_query (run : RagRunner) (st : EnhState) (req : QueryRequestEnh)
    (user : Option String) : Except HTTPError QueryResponseEnh × EnhState :=
  match st.rag_pipeline with
  | none =>
    (.error ⟨500, "Query failed: 503: RAG pipeline not initialized"⟩, st)
  | some _ =>
    match run req.query req.max_results with
    | .error e => (.error ⟨500, "Query failed: " ++ e⟩, st)
    | .ok r =>
      (.ok ⟨req.query, r.response, r.sources⟩,
       { st with total_queries := st.total_queries + 1,
                 query_history :=
                   appendHistoryEnh st.query_history ⟨req.query, r.response, user⟩ })

/-- The `/feedback` handler of enhanced_main.py together with pydantic's
validation of its `FeedbackRequest` argument: an out-of-range rating is
rejected before the handler runs; a valid one is appended to the capped
`feedback_data` log. -/
def submit_feedback_enh (st : EnhState) (query response : String) (rating : Int)
    (comment : Option String) (user : Option String) : Except String EnhState :=
  if feedbackRatingValid rating then
    .ok { st with feedback_data :=
            appendFeedbackEnh st.feedback_data ⟨query, response, rating, comment, user⟩ }
  else
    .error "validation error"

/- ### History-cap helper -/

/-- The last `n` elements of a list (the semantics of Python's
`l[-n:]`). -/
def lastN (n : Nat) (l : List α) : List α := l.drop (l.length - n)

/- ### Helper lemmas -/

/-- The newest record always survives the `l[-100:]` style cap of
main_v2.py. -/
theorem mem_appendFeedbackV2 (l : List FeedbackEntry) (r : FeedbackEntry) :
    r ∈ appendFeedbackV2 l r := by
  unfold appendFeedbackV2
  by_cases h : (l ++ [r]).length > 100
  · have hle : (l ++ [r]).length - 100 ≤ l.length := by
      simp only [List.length_append, List.length_cons, List.length_nil] at h ⊢
      omega
    rw [if_pos h, List.drop_append_of_le_length hle]
    simp
  · rw [if_neg h]
    simp

set_option maxHeartbeats 1000000 in
/-- A document of any loadable supported file of the batch ends up in the
collected documents of the enhanced ingestor. -/
theorem mem_collectDocs_ok (f : String) (ds : List Doc) (d : Doc)
    (hsup : supportedLoader f = true) (hd : d ∈ ds) :
    ∀ dir : List DirFile, (f, Except.ok ds) ∈ dir → d ∈ (collectDocs dir).1 := by
  intro dir
  induction dir with
  | nil => intro hmem; simp at hmem
  | cons head rest ih =>
    obtain ⟨g, res⟩ := head
    intro hmem
    rcases List.mem_cons.mp hmem with heq | hmem'
    · injection heq with hfg hres
      subst hfg
      subst hres
      rw [collectDocs]
      simp [hsup, hd]
    · have hrec := ih hmem'
      rcases res with e | gs
      · rw [collectDocs]
        by_cases hg : supportedLoader g = true
        · simpa [hg] using hrec
        · simpa [hg] using hrec
      · rw [collectDocs]
        by_cases hg : supportedLoader g = true
        · simp [hg, hrec]
        · simpa [hg] using hrec

set_option maxHeartbeats 1000000 in
/-- A loader failure on a supported file of the batch is reported in the
enhanced ingestor's error output. -/
theorem mem_collectDocs_err (f e : String) (hsup : supportedLoader f = true) :
    ∀ dir : List DirFile, (f, Except.error e) ∈ dir →
      ("Error loading " ++ f ++ ": " ++ e) ∈ (collectDocs dir).2 := by
  intro dir
  induction dir with
  | nil => intro hmem; simp at hmem
  | cons head rest ih =>
    obtain ⟨g, res⟩ := head
    intro hmem
    rcases List.mem_cons.mp hmem with heq | hmem'
    · injection heq with hfg hres
      subst hfg
      subst hres
      rw [collectDocs]
      simp [hsup]
    · have hrec := ih hmem'
      rcases res with e' | gs
      · rw [collectDocs]
        by_cases hg : supportedLoader g = true
        · simp [hg, hrec]
        · simpa [hg] using hrec
      · rw [collectDocs]
        by_cases hg : supportedLoader g = true
        · simpa [hg] using hrec
        · simpa [hg] using hrec

/-- Every document of a loadable `.pdf` of the directory ends up in the
documents collected by ingest.py's loader loop, when that loop succeeds. -/
theorem loadPdfDocs_mem (f : String) (ds : List Doc) (d : Doc)
    (hf : strEndsWith f ".pdf" = true) (hd : d ∈ ds) :
    ∀ (dir : List DirFile) (docs : List Doc),
      loadPdfDocs dir = Except.ok docs → (f, Except.ok ds) ∈ dir → d ∈ docs := by
  intro dir
  induction dir with
  | nil => intro docs _ hmem; simp at hmem
  | cons head rest ih =>
    obtain ⟨g, res⟩ := head
    intro docs h hmem
    simp only [loadPdfDocs] at h
    by_cases hg : strEndsWith g ".pdf" = true
    · rw [if_pos (by simp [hg])] at h
      rcases res with e | gs
      · simp at h
      · rcases hrest : loadPdfDocs rest with e' | tail
        · rw [hrest] at h
          simp at h
        · rw [hrest] at h
          simp only [Except.ok.injEq] at h
          subst h
          rcases List.mem_cons.mp hmem with heq | hmem'
          · injection heq with hfg hres
            injection hres with hds
            subst hds
            exact List.mem_append_left _ hd
          · exact List.mem_append_right _ (ih tail hrest hmem')
    · rw [if_neg (by simp [hg])] at h
      rcases List.mem_cons.mp hmem with heq | hmem'
      · injection heq with hfg hres
        subst hfg
        exact absurd hf hg
      · exact ih docs h hmem'

/-- Stepping the `l[-100:]`-style cap preserves the "last `cap` records
of the full chronological log" abstraction. -/
theorem lastN_cap_drop {α : Type} (cap : Nat) (hcap : 0 < cap) (l : List α) (r : α) :
    (if (lastN cap l ++ [r]).length > cap
      then (lastN cap l ++ [r]).drop ((lastN cap l ++ [r]).length - cap)
      else lastN cap l ++ [r]) = lastN cap (l ++ [r]) := by
  unfold lastN
  rcases Nat.lt_or_ge l.length cap with hc | hc
  · rw [if_neg]
    · have h1 : l.length - cap = 0 := by omega
      have h2 : (l ++ [r]).length - cap = 0 := by
        simp only [List.length_append, List.length_cons, List.length_nil]
        omega
      rw [h1, h2, List.drop_zero, List.drop_zero]
    · simp only [List.length_append, List.length_drop, List.length_cons, List.length_nil]
      omega
  · rw [if_pos]
    · have h1 : (l.drop (l.length - cap) ++ [r]).length - cap = 1 := by
        simp only [List.length_append, List.length_drop, List.length_cons, List.length_nil]
        omega
      rw [h1, List.drop_append_of_le_length (by simp only [List.length_drop]; omega),
        List.drop_drop,
        List.drop_append_of_le_length
          (by simp only [List.length_append, List.length_cons, List.length_nil]; omega)]
      have h3 : l.length - cap + 1 = (l ++ [r]).length - cap := by
        simp only [List.length_append, List.length_cons, List.length_nil]
        omega
      rw [h3]
    · simp only [List.length_append, List.length_drop, List.length_cons, List.length_nil]
      omega

/-- Stepping the `pop(0)`-style cap preserves the same abstraction. -/
theorem lastN_cap_tail {α : Type} (cap : Nat) (hcap : 0 < cap) (l : List α) (r : α) :
    (if (lastN cap l ++ [r]).length > cap
      then (lastN cap l ++ [r]).tail
      else lastN cap l ++ [r]) = lastN cap (l ++ [r]) := by
  rw [← lastN_cap_drop cap hcap l r]
  rcases Nat.lt_or_ge l.length cap with hc | hc
  · rw [if_neg, if_neg] <;>
      simp only [lastN, List.length_append, List.length_drop, List.length_cons,
        List.length_nil] <;>
      omega
  · have hgt : (lastN cap l ++ [r]).length > cap := by
      simp only [lastN, List.length_append, List.length_drop, List.length_cons,
        List.length_nil]
      omega
    have h1 : (lastN cap l ++ [r]).length - cap = 1 := by
      simp only [lastN, List.length_append, List.length_drop, List.length_cons,
        List.length_nil]
      omega
    rw [if_pos hgt, if_pos hgt, h1, List.drop_one]

/-- main_v2.py's query-log cap, stepped on the last-100 abstraction. -/
theorem appendLogV2_lastN (full : List QueryLog) (r : QueryLog) :
    appendLogV2 (lastN 100 full) r = lastN 100 (full ++ [r]) := by
  have h := lastN_cap_drop 100 (by omega) full r
  simpa [appendLogV2] using h

/-- enhanced_main.py's query-history cap, stepped on the same
abstraction. -/
theorem appendHistoryEnh_lastN (full : List QueryRecord) (r : QueryRecord) :
    appendHistoryEnh (lastN 100 full) r = lastN 100 (full ++ [r]) := by
  have h := lastN_cap_tail 100 (by omega) full r
  simpa [appendHistoryEnh] using h

/-- Folding main_v2.py's log update over any record sequence keeps
exactly the last 100 records. -/
theorem foldl_appendLogV2 (rs : List QueryLog) :
    ∀ full : List QueryLog,
      rs.foldl appendLogV2 (lastN 100 full) = lastN 100 (full ++ rs) := by
  induction rs with
  | nil => intro full; simp
  | cons r rs ih =>
    intro full
    simp only [List.foldl_cons]
    rw [appendLogV2_lastN, ih (full ++ [r])]
    simp

/-- Folding enhanced_main.py's history update over any record sequence
keeps exactly the last 100 records. -/
theorem foldl_appendHistoryEnh (ss : List QueryRecord) :
    ∀ full : List QueryRecord,
      ss.foldl appendHistoryEnh (lastN 100 full) = lastN 100 (full ++ ss) := by
  induction ss with
  | nil => intro full; simp
  | cons r ss ih =>
    intro full
    simp only [List.foldl_cons]
    rw [appendHistoryEnh_lastN, ih (full ++ [r])]
    simp

/-- The first chunk of a split of non-empty text is the `chunk_size`
prefix of the text. -/
theorem splitText_head (cs ov : Nat) (t : List Char) (ht : t ≠ [])
    (hcs : ov < cs) : ∃ rest, splitText cs ov t = t.take cs :: rest := by
  rw [splitText]
  split
  · next h0 => exact absurd (by simpa using h0) ht
  · split
    · next h =>
      refine ⟨[], ?_⟩
      have hlen : t.length ≤ cs := by
        rcases h with h1 | h1
        · exact h1
        · omega
      rw [List.take_of_length_le hlen]
    · exact ⟨_, rfl⟩

/-- Every chunk the splitter produces is non-empty. -/
theorem splitText_chunks_ne_nil (cs ov : Nat) (hcs : 0 < cs) (t : List Char) :
    ∀ c ∈ splitText cs ov t, c ≠ [] := by
  intro c hc
  rw [splitText] at hc
  split at hc
  · simp at hc
  · next h0 =>
    split at hc
    · rw [List.mem_singleton] at hc
      subst hc
      simpa using h0
    · next h =>
      simp only [not_or, not_le] at h
      obtain ⟨hlen, hovcs⟩ := h
      rcases List.mem_cons.mp hc with rfl | hc'
      · intro hnil
        have hlen0 := congrArg List.length hnil
        simp only [List.length_take, List.length_nil] at hlen0
        have ht : t ≠ [] := by simpa using h0
        have hpos : 0 < t.length := List.length_pos.mpr ht
        omega
      · exact splitText_chunks_ne_nil cs ov hcs (t.drop (cs - ov)) c hc'
termination_by t.length
decreasing_by
  simp only [List.length_drop]
  omega

/-- Removing the overlaps from the splitter's output and concatenating
reconstructs the original text. -/
theorem reassemble_splitText (cs ov : Nat) (hov : 0 < ov) (hcs : ov < cs)
    (t : List Char) : reassemble ov (splitText cs ov t) = t := by
  rw [splitText]
  split
  · next h0 => simpa [reassemble] using (List.isEmpty_iff.mp h0).symm
  · split
    · simp [reassemble]
    · next h =>
      simp only [not_or, not_le] at h
      obtain ⟨hlen, hovcs⟩ := h
      have hlen' : 0 < (t.drop (cs - ov)).length := by
        simp only [List.length_drop]
        omega
      have htne := List.length_pos.mp hlen'
      obtain ⟨rest, hsp⟩ := splitText_head cs ov (t.drop (cs - ov)) htne hcs
      have hIH := reassemble_splitText cs ov hov hcs (t.drop (cs - ov))
      rw [hsp] at hIH
      rw [hsp]
      simp only [reassemble, List.map_cons, List.flatten_cons] at hIH ⊢
      have hAlen : ov ≤ ((t.drop (cs - ov)).take cs).length := by
        simp only [List.length_take, List.length_drop]
        omega
      rw [← List.drop_append_of_le_length hAlen, hIH, List.drop_drop]
      have hix : cs - ov + ov = cs := by omega
      rw [hix, List.take_append_drop]
termination_by t.length
decreasing_by
  simp only [List.length_drop]
  omega

/-- Every chunk after the first starts with exactly the last `ov`
characters of its predecessor. -/
theorem splitText_overlap (cs ov : Nat) (hov : 0 < ov) (hcs : ov < cs)
    (t : List Char) :
    List.Chain' (fun a b => b.take ov = a.drop (a.length - ov))
      (splitText cs ov t) := by
  rw [splitText]
  split
  · simp
  · split
    · simp
    · next h =>
      simp only [not_or, not_le] at h
      obtain ⟨hlen, hovcs⟩ := h
      have hlen' : 0 < (t.drop (cs - ov)).length := by
        simp only [List.length_drop]
        omega
      have htne := List.length_pos.mp hlen'
      obtain ⟨rest, hsp⟩ := splitText_head cs ov (t.drop (cs - ov)) htne hcs
      have hrec := splitText_overlap cs ov hov hcs (t.drop (cs - ov))
      rw [hsp] at hrec
      rw [hsp, List.chain'_cons]
      refine ⟨?_, hrec⟩
      have h1 : (t.take cs).length = cs := by
        simp only [List.length_take]
        omega
      rw [h1, List.take_take, List.drop_take]
      have h2 : min ov cs = ov := by omega
      have h3 : cs - (cs - ov) = ov := by omega
      rw [h2, h3]
termination_by t.length
decreasing_by
  simp only [List.length_drop]
  omega

/- ### Claims -/

/-- C1: a query issued while the QA chain is still unset (no successful
ingestion yet) is answered with the "not ready" error condition — the
`{"error": "No data ingested yet."}` body in main.py and the 400
`HTTPException` in main_v2.py — and never with an answer (empty-string or
otherwise). -/
theorem query_before_ingest_not_ready (run : ChainRunner) (st : AppState)
    (st2 : V2State) (req : QueryRequestV2) (qid q : String)
    (h1 : st.qa_chain = none) (h2 : st2.qa_chain = none) :
    query_main run st q = .notReady ∧
    (∀ s, query_main run st q ≠ .answer s) ∧
    (enhanced_query run st2 req qid).1 =
      .error ⟨400, "No data ingested yet. Please upload documents first."⟩ ∧
    (∀ resp, (enhanced_query run st2 req qid).1 ≠ .ok resp) := by
  unfold query_main enhanced_query
  simp [h1, h2]

/-- Witness for C1: the freshly started apps (all globals `None`/empty)
reject a query as not ready. -/
theorem query_before_ingest_not_ready_witness :
    query_main (fun _ _ => .ok "yes") ⟨none, none, []⟩ "q" = .notReady ∧
    (∀ s, query_main (fun _ _ => .ok "yes") ⟨none, none, []⟩ "q" ≠ .answer s) ∧
    (enhanced_query (fun _ _ => .ok "yes") ⟨none, none, [], [], []⟩
        ⟨"q", "openai", "similarity", 4⟩ "id1").1 =
      .error ⟨400, "No data ingested yet. Please upload documents first."⟩ ∧
    (∀ resp, (enhanced_query (fun _ _ => .ok "yes") ⟨none, none, [], [], []⟩
        ⟨"q", "openai", "similarity", 4⟩ "id1").1 ≠ .ok resp) :=
  query_before_ingest_not_ready (fun _ _ => .ok "yes") ⟨none, none, []⟩
    ⟨none, none, [], [], []⟩ ⟨"q", "openai", "similarity", 4⟩ "id1" "q" rfl rfl

/-- C4 (code bug): `load_vector_store` maps every failure of the external
index load — a missing location as much as a corrupt one — to the same
silent `None`, instead of an explicit, distinguishable error result; only
a successful load is distinguishable. -/
theorem load_vector_store_silently_none :
    load_vector_store (.error "no such file or directory: ./vector_store") = none ∧
    load_vector_store (.error "corrupt index file") = none ∧
    load_vector_store (.error "no such file or directory: ./vector_store") =
      load_vector_store (.error "corrupt index file") ∧
    load_vector_store (.ok []) = some [] :=
  ⟨rfl, rfl, rfl, rfl⟩

/-- C5: no query handler ever mutates the vector index or the pipeline's
ingest state (`vector_store`/`qa_chain` in main_v2.py, `rag_pipeline` in
enhanced_main.py), and a failed query leaves the whole state — query
history included — exactly as it was. -/
theorem query_never_mutates_index (run : ChainRunner) (st2 : V2State)
    (req : QueryRequestV2) (qid : String) (runE : RagRunner) (st3 : EnhState)
    (reqE : QueryRequestEnh) (user : Option String) :
    (enhanced_query run st2 req qid).2.vector_store = st2.vector_store ∧
    (enhanced_query run st2 req qid).2.qa_chain = st2.qa_chain ∧
    (enhanced_query run st2 req qid).2.docs_dir = st2.docs_dir ∧
    (∀ e, (enhanced_query run st2 req qid).1 = .error e →
       (enhanced_query run st2 req qid).2 = st2) ∧
    (process_query runE st3 reqE user).2.rag_pipeline = st3.rag_pipeline ∧
    (∀ e, (process_query runE st3 reqE user).1 = .error e →
       (process_query runE st3 reqE user).2 = st3) := by
  have hv2 : (enhanced_query run st2 req qid).2.vector_store = st2.vector_store ∧
      (enhanced_query run st2 req qid).2.qa_chain = st2.qa_chain ∧
      (enhanced_query run st2 req qid).2.docs_dir = st2.docs_dir ∧
      (∀ e, (enhanced_query run st2 req qid).1 = .error e →
        (enhanced_query run st2 req qid).2 = st2) := by
    unfold enhanced_query
    rcases h2 : st2.qa_chain with _ | chain
    · simp [h2]
    · rcases hr : run chain req.question with e | ans <;> simp [hr, h2]
  have henh : (process_query runE st3 reqE user).2.rag_pipeline = st3.rag_pipeline ∧
      (∀ e, (process_query runE st3 reqE user).1 = .error e →
        (process_query runE st3 reqE user).2 = st3) := by
    unfold process_query
    rcases h3 : st3.rag_pipeline with _ | rp
    · simp [h3]
    · rcases hrE : runE reqE.query reqE.max_results with eE | rE <;> simp [hrE, h3]
  exact ⟨hv2.1, hv2.2.1, hv2.2.2.1, hv2.2.2.2, henh.1, henh.2⟩

/-- Witness for C5 on concrete ready states with a succeeding and a
failing run. -/
theorem query_never_mutates_index_witness :
    (enhanced_query (fun _ _ => .error "boom") ⟨some [], some ⟨[]⟩, [], [], []⟩
        ⟨"q", "openai", "similarity", 4⟩ "id1").2.vector_store = some [] ∧
    (enhanced_query (fun _ _ => .error "boom") ⟨some [], some ⟨[]⟩, [], [], []⟩
        ⟨"q", "openai", "similarity", 4⟩ "id1").2.qa_chain = some ⟨[]⟩ ∧
    (enhanced_query (fun _ _ => .error "boom") ⟨some [], some ⟨[]⟩, [], [], []⟩
        ⟨"q", "openai", "similarity", 4⟩ "id1").2.docs_dir = [] ∧
    (∀ e, (enhanced_query (fun _ _ => .error "boom") ⟨some [], some ⟨[]⟩, [], [], []⟩
        ⟨"q", "openai", "similarity", 4⟩ "id1").1 = .error e →
       (enhanced_query (fun _ _ => .error "boom") ⟨some [], some ⟨[]⟩, [], [], []⟩
        ⟨"q", "openai", "similarity", 4⟩ "id1").2 = ⟨some [], some ⟨[]⟩, [], [], []⟩) ∧
    (process_query (fun _ _ => .ok ⟨"ans", []⟩) ⟨some (), [], [], 0, 0⟩
        ⟨"q", 5, false⟩ none).2.rag_pipeline = some () ∧
    (∀ e, (process_query (fun _ _ => .ok ⟨"ans", []⟩) ⟨some (), [], [], 0, 0⟩
        ⟨"q", 5, false⟩ none).1 = .error e →
       (process_query (fun _ _ => .ok ⟨"ans", []⟩) ⟨some (), [], [], 0, 0⟩
        ⟨"q", 5, false⟩ none).2 = ⟨some (), [], [], 0, 0⟩) :=
  query_never_mutates_index (fun _ _ => .error "boom") ⟨some [], some ⟨[]⟩, [], [], []⟩
    ⟨"q", "openai", "similarity", 4⟩ "id1" (fun _ _ => .ok ⟨"ans", []⟩)
    ⟨some (), [], [], 0, 0⟩ ⟨"q", 5, false⟩ none

/-- C7 counterexample: main_v2.py's `/v2/feedback/` accepts a feedback
record whose rating is 6 — outside 1..5 — and appends it to the feedback
log. -/
theorem feedback_rating_unvalidated_v2 :
    (submit_feedback_v2 ⟨none, none, [], [], []⟩ ⟨"q1", 6, none⟩ "f1").feedback_data
      = [⟨"f1", "q1", 6, none⟩] ∧
    ¬((1 : Int) ≤ 6 ∧ (6 : Int) ≤ 5) := by
  exact ⟨rfl, by decide⟩

/-- C7 (amended): enhanced_main.py accepts a feedback record exactly when
its rating lies in 1..5 and rejects it otherwise without appending, while
main_v2.py appends the submitted record whatever its rating. -/
theorem feedback_rating_policy (st : EnhState) (q r : String) (rating : Int)
    (c : Option String) (u : Option String) (st2 : V2State) (fb : UserFeedback)
    (fid : String) :
    (feedbackRatingValid rating = true ↔ 1 ≤ rating ∧ rating ≤ 5) ∧
    (feedbackRatingValid rating = false →
       submit_feedback_enh st q r rating c u = .error "validation error") ∧
    (feedbackRatingValid rating = true →
       submit_feedback_enh st q r rating c u =
         .ok { st with feedback_data :=
                 appendFeedbackEnh st.feedback_data ⟨q, r, rating, c, u⟩ }) ∧
    (⟨fid, fb.query_id, fb.rating, fb.comment⟩ : FeedbackEntry) ∈
      (submit_feedback_v2 st2 fb fid).feedback_data := by
  refine ⟨?_, ?_, ?_, ?_⟩
  · simp [feedbackRatingValid]
  · intro h
    simp [submit_feedback_enh, h]
  · intro h
    simp [submit_feedback_enh, h]
  · exact mem_appendFeedbackV2 st2.feedback_data _

/-- Witness for C7: a rating of 0 is rejected by enhanced_main.py while a
rating of 3 is accepted, and main_v2.py appends a rating-6 record. -/
theorem feedback_rating_policy_witness :
    submit_feedback_enh ⟨none, [], [], 0, 0⟩ "q" "r" 0 none none =
      .error "validation error" ∧
    submit_feedback_enh ⟨none, [], [], 0, 0⟩ "q" "r" 3 none none =
      .ok ⟨none, [], [⟨"q", "r", 3, none, none⟩], 0, 0⟩ ∧
    (⟨"f1", "q1", 6, none⟩ : FeedbackEntry) ∈
      (submit_feedback_v2 ⟨none, none, [], [], []⟩ ⟨"q1", 6, none⟩ "f1").feedback_data :=
  ⟨(feedback_rating_policy ⟨none, [], [], 0, 0⟩ "q" "r" 0 none none
      ⟨none, none, [], [], []⟩ ⟨"q1", 6, none⟩ "f1").2.1 (by decide),
   (feedback_rating_policy ⟨none, [], [], 0, 0⟩ "q" "r" 3 none none
      ⟨none, none, [], [], []⟩ ⟨"q1", 6, none⟩ "f1").2.2.1 (by decide),
   (feedback_rating_policy ⟨none, [], [], 0, 0⟩ "q" "r" 3 none none
      ⟨none, none, [], [], []⟩ ⟨"q1", 6, none⟩ "f1").2.2.2⟩

/-- C2 counterexample: ingest.py's batch of two files — `bad.pdf`, whose
loader raises `corrupt file`, and a perfectly readable `good.pdf` — aborts
whole: the propagated exception yields no chunks at all, not even from the
good file. -/
theorem ingest_batch_aborts_v1 :
    ingest_documents_v1 (fun d => [⟨d.text, d.source⟩])
      [("bad.pdf", .error "corrupt file"),
       ("good.pdf", .ok [⟨"Paris is the capital of France.", "good.pdf"⟩])]
      = .error "corrupt file" := by
  rfl

/-- C2 (amended): the enhanced ingestor
(`EnhancedDocumentIngestor.ingest_documents`) is resilient — every
document of every loadable supported file of the batch contributes its
chunks to the output, and every supported file whose loader raises gets a
reported error, a single bad file never aborting the batch; the basic
ingest.py `ingest_documents`, by contrast, propagates a loader exception
and aborts the whole batch. -/
theorem ingest_batch_resilient (chunker : Doc → List Chunk) (dir : List DirFile) :
    (∀ f ds, (f, Except.ok ds) ∈ dir → supportedLoader f = true →
       ∀ d ∈ ds, d ∈ (collectDocs dir).1) ∧
    (∀ f ds d, (f, Except.ok ds) ∈ dir → supportedLoader f = true → d ∈ ds →
       ∀ c ∈ chunker d, c ∈ (ingest_documents_enhanced chunker dir).1) ∧
    (∀ f e, (f, Except.error e) ∈ dir → supportedLoader f = true →
       ("Error loading " ++ f ++ ": " ++ e) ∈
         (ingest_documents_enhanced chunker dir).2) := by
  refine ⟨?_, ?_, ?_⟩
  · intro f ds hmem hsup d hd
    exact mem_collectDocs_ok f ds d hsup hd dir hmem
  · intro f ds d hmem hsup hd c hc
    have hdoc : d ∈ (collectDocs dir).1 := mem_collectDocs_ok f ds d hsup hd dir hmem
    exact List.mem_flatMap.mpr ⟨d, hdoc, hc⟩
  · intro f e hmem hsup
    exact mem_collectDocs_err f e hsup dir hmem

/-- Witness for C2: a 3-file batch with one corrupt file yields chunks
from both good files and a reported error for the bad one. -/
theorem ingest_batch_resilient_witness :
    (⟨"alpha", "a.txt"⟩ : Chunk) ∈
      (ingest_documents_enhanced (fun d => [⟨d.text, d.source⟩])
        [("a.txt", .ok [⟨"alpha", "a.txt"⟩]),
         ("bad.pdf", .error "corrupt"),
         ("b.pdf", .ok [⟨"beta", "b.pdf"⟩])]).1 ∧
    (⟨"beta", "b.pdf"⟩ : Chunk) ∈
      (ingest_documents_enhanced (fun d => [⟨d.text, d.source⟩])
        [("a.txt", .ok [⟨"alpha", "a.txt"⟩]),
         ("bad.pdf", .error "corrupt"),
         ("b.pdf", .ok [⟨"beta", "b.pdf"⟩])]).1 ∧
    ("Error loading " ++ "bad.pdf" ++ ": " ++ "corrupt") ∈
      (ingest_documents_enhanced (fun d => [⟨d.text, d.source⟩])
        [("a.txt", .ok [⟨"alpha", "a.txt"⟩]),
         ("bad.pdf", .error "corrupt"),
         ("b.pdf", .ok [⟨"beta", "b.pdf"⟩])]).2 :=
  ⟨(ingest_batch_resilient (fun d => [⟨d.text, d.source⟩])
      [("a.txt", .ok [⟨"alpha", "a.txt"⟩]), ("bad.pdf", .error "corrupt"),
       ("b.pdf", .ok [⟨"beta", "b.pdf"⟩])]).2.1
    "a.txt" [⟨"alpha", "a.txt"⟩] ⟨"alpha", "a.txt"⟩
    (by simp) (by decide) (by simp) ⟨"alpha", "a.txt"⟩ (by simp),
   (ingest_batch_resilient (fun d => [⟨d.text, d.source⟩])
      [("a.txt", .ok [⟨"alpha", "a.txt"⟩]), ("bad.pdf", .error "corrupt"),
       ("b.pdf", .ok [⟨"beta", "b.pdf"⟩])]).2.1
    "b.pdf" [⟨"beta", "b.pdf"⟩] ⟨"beta", "b.pdf"⟩
    (by simp) (by decide) (by simp) ⟨"beta", "b.pdf"⟩ (by simp),
   (ingest_batch_resilient (fun d => [⟨d.text, d.source⟩])
      [("a.txt", .ok [⟨"alpha", "a.txt"⟩]), ("bad.pdf", .error "corrupt"),
       ("b.pdf", .ok [⟨"beta", "b.pdf"⟩])]).2.2
    "bad.pdf" "corrupt" (by simp) (by decide)⟩

/-- C9: starting from the empty in-memory history, after any sequence of
successful queries both main_v2.py's `query_logs` and enhanced_main.py's
`query_history` hold exactly the last 100 records of the full
chronological sequence — never more than 100, with the oldest records the
ones evicted. -/
theorem query_history_capped (rs : List QueryLog) (ss : List QueryRecord) :
    rs.foldl appendLogV2 [] = lastN 100 rs ∧
    (rs.foldl appendLogV2 []).length ≤ 100 ∧
    ss.foldl appendHistoryEnh [] = lastN 100 ss ∧
    (ss.foldl appendHistoryEnh []).length ≤ 100 := by
  have h1 : rs.foldl appendLogV2 [] = lastN 100 rs := by
    have h := foldl_appendLogV2 rs []
    simpa [lastN] using h
  have h2 : ss.foldl appendHistoryEnh [] = lastN 100 ss := by
    have h := foldl_appendHistoryEnh ss []
    simpa [lastN] using h
  refine ⟨h1, ?_, h2, ?_⟩
  · rw [h1]
    simp only [lastN, List.length_drop]
    omega
  · rw [h2]
    simp only [lastN, List.length_drop]
    omega

/-- C10 counterexample: with an index already built from `old.docx`'s
text, a `/v2/ingest/` call uploading `a.docx` (readable, but skipped by
the imported `.pdf`-only `ingest_documents`) produces no chunks, so the
`if docs:` guard leaves the previous index in place — the old index is
not discarded and the new file's chunk is absent from it. -/
theorem ingest_keeps_old_index_v2 :
    (enhanced_ingest (fun d => [⟨d.text, d.source⟩])
        ⟨some [⟨"old text", "old.docx"⟩], some ⟨[⟨"old text", "old.docx"⟩]⟩, [], [], []⟩
        [("a.docx", .ok [⟨"new text", "a.docx"⟩])]).1.vector_store
      = some [⟨"old text", "old.docx"⟩] ∧
    (⟨"new text", "a.docx"⟩ : Chunk) ∉ [(⟨"old text", "old.docx"⟩ : Chunk)] := by
  refine ⟨rfl, by decide⟩

/-- C10 (amended): whenever processing the docs directory yields at least
one chunk, both ingest endpoints rebuild the vector store from scratch
out of all files currently present (previously saved ones included) and
replace the previous index and QA chain entirely — in particular every
chunk of every previously saved loadable `.pdf` is re-derived into the
new index; main_v2.py's endpoint, however, keeps the previous index
whenever processing yields no chunks. -/
theorem ingest_rebuilds_index (chunker : Doc → List Chunk) (st : AppState)
    (st2 : V2State) (upload : DirFile) (uploads : List DirFile)
    (chunks chunks2 : List Chunk)
    (h1 : ingest_documents_v1 chunker (st.docs_dir ++ [upload]) = .ok chunks)
    (h2 : ingest_documents_v1 chunker (st2.docs_dir ++ uploads) = .ok chunks2)
    (hne : chunks2 ≠ []) :
    (ingest_main chunker st upload).1.vector_store =
      some (build_vector_store chunks) ∧
    (ingest_main chunker st upload).1.qa_chain =
      some (get_qa_chain (build_vector_store chunks)) ∧
    (enhanced_ingest chunker st2 uploads).1.vector_store =
      some (build_vector_store chunks2) ∧
    (enhanced_ingest chunker st2 uploads).1.qa_chain =
      some (get_qa_chain (build_vector_store chunks2)) ∧
    (∀ f ds, (f, Except.ok ds) ∈ st2.docs_dir → strEndsWith f ".pdf" = true →
       ∀ d ∈ ds, ∀ c ∈ chunker d, c ∈ build_vector_store chunks2) := by
  have hie : chunks2.isEmpty = false := by
    cases chunks2
    · exact absurd rfl hne
    · rfl
  refine ⟨?_, ?_, ?_, ?_, ?_⟩
  · simp [ingest_main, h1]
  · simp [ingest_main, h1]
  · unfold enhanced_ingest
    dsimp only
    rw [h2]
    simp [hie]
  · unfold enhanced_ingest
    dsimp only
    rw [h2]
    simp [hie]
  · intro f ds hmem hf d hd c hc
    unfold ingest_documents_v1 at h2
    rcases hload : loadPdfDocs (st2.docs_dir ++ uploads) with e | docs
    · rw [hload] at h2
      simp [Except.map] at h2
    · rw [hload] at h2
      simp only [Except.map, Except.ok.injEq] at h2
      have hdoc : d ∈ docs :=
        loadPdfDocs_mem f ds d hf hd _ docs hload (List.mem_append_left _ hmem)
      have : c ∈ docs.flatMap chunker := List.mem_flatMap.mpr ⟨d, hdoc, hc⟩
      rw [← h2]
      exact this

/-- Witness for C10: uploading `new.pdf` next to a previously saved
`old.pdf` rebuilds the index with the chunks of both. -/
theorem ingest_rebuilds_index_witness :
    (enhanced_ingest (fun d => [⟨d.text, d.source⟩])
        ⟨some [⟨"old text", "old.pdf"⟩], some ⟨[⟨"old text", "old.pdf"⟩]⟩, [], [],
         [("old.pdf", .ok [⟨"old text", "old.pdf"⟩])]⟩
        [("new.pdf", .ok [⟨"new text", "new.pdf"⟩])]).1.vector_store
      = some (build_vector_store
          [⟨"old text", "old.pdf"⟩, ⟨"new text", "new.pdf"⟩]) ∧
    (⟨"old text", "old.pdf"⟩ : Chunk) ∈
      build_vector_store [⟨"old text", "old.pdf"⟩, ⟨"new text", "new.pdf"⟩] :=
  ⟨(ingest_rebuilds_index (fun d => [⟨d.text, d.source⟩])
      ⟨none, none, []⟩
      ⟨some [⟨"old text", "old.pdf"⟩], some ⟨[⟨"old text", "old.pdf"⟩]⟩, [], [],
       [("old.pdf", .ok [⟨"old text", "old.pdf"⟩])]⟩
      ("x.pdf", .ok []) [("new.pdf", .ok [⟨"new text", "new.pdf"⟩])]
      [] [⟨"old text", "old.pdf"⟩, ⟨"new text", "new.pdf"⟩]
      (by rfl) (by rfl) (by decide)).2.2.1,
   (ingest_rebuilds_index (fun d => [⟨d.text, d.source⟩])
      ⟨none, none, []⟩
      ⟨some [⟨"old text", "old.pdf"⟩], some ⟨[⟨"old text", "old.pdf"⟩]⟩, [], [],
       [("old.pdf", .ok [⟨"old text", "old.pdf"⟩])]⟩
      ("x.pdf", .ok []) [("new.pdf", .ok [⟨"new text", "new.pdf"⟩])]
      [] [⟨"old text", "old.pdf"⟩, ⟨"new text", "new.pdf"⟩]
      (by rfl) (by rfl) (by decide)).2.2.2.2
    "old.pdf" [⟨"old text", "old.pdf"⟩] (by simp) (by rfl)
    ⟨"old text", "old.pdf"⟩ (by simp) ⟨"old text", "old.pdf"⟩ (by simp)⟩

/-- C8 counterexample: in main_v2.py the retrieval-count parameter `k`
defaults to 4, not 5, and a value of 100 — far outside 1..20 — is
accepted unvalidated. -/
theorem max_results_unvalidated_v2 :
    parseKV2 none = 4 ∧ parseKV2 none ≠ 5 ∧ parseKV2 (some 100) = 100 ∧
    ¬((1 : Int) ≤ 100 ∧ (100 : Int) ≤ 20) := by
  refine ⟨rfl, by decide, rfl, by decide⟩

/-- C8 (amended): in enhanced_main.py, `max_results` defaults to 5 when
omitted and a supplied value is accepted exactly when it lies in 1..20,
the request being rejected by validation before the handler runs
otherwise; in main_v2.py the analogous `k` parameter defaults to 4 and is
accepted without any range check. -/
theorem max_results_policy (v w : Int) :
    parseMaxResults none = .ok 5 ∧
    (1 ≤ v ∧ v ≤ 20 → parseMaxResults (some v) = .ok v) ∧
    (¬(1 ≤ v ∧ v ≤ 20) → parseMaxResults (some v) = .error "validation error") ∧
    parseKV2 none = 4 ∧
    parseKV2 (some w) = w := by
  refine ⟨rfl, ?_, ?_, rfl, rfl⟩
  · intro h
    simp [parseMaxResults, h]
  · intro h
    simp [parseMaxResults, h]

/-- Witness for C8: 7 is accepted, 25 is rejected. -/
theorem max_results_policy_witness :
    parseMaxResults (some 7) = .ok 7 ∧
    parseMaxResults (some 25) = .error "validation error" :=
  ⟨(max_results_policy 7 0).2.1 (by decide),
   (max_results_policy 25 0).2.2.1 (by decide)⟩

/-- C3 (spec-modelled): for every query text, every `k ≥ 1` and every
index of `n` records, the Vector Index search returns an ordered result
sequence (scores non-decreasing) of length exactly `min k n` — never more
than `k` results and never fewer than `min k n`. -/
theorem search_returns_min_k (embed : String → List Int)
    (d : List Int → List Int → Int) (index : List EmbeddingRecord)
    (q : String) (k : Nat) (hk : 1 ≤ k) :
    (vectorSearch embed d index q k).length = min k index.length ∧
    (vectorSearch embed d index q k).length ≤ k ∧
    List.Pairwise (fun a b => a.2 ≤ b.2) (vectorSearch embed d index q k) := by
  refine ⟨?_, ?_, ?_⟩
  · simp only [vectorSearch, List.length_take, List.length_mergeSort,
      List.length_map]
  · simp only [vectorSearch, List.length_take, List.length_mergeSort,
      List.length_map]
    omega
  · have hsorted :
        List.Pairwise
          (fun a b : EmbeddingRecord × Int => decide (a.2 ≤ b.2) = true)
          ((index.map (fun r => (r, d r.vec (embed q)))).mergeSort
            (fun a b => decide (a.2 ≤ b.2))) :=
      List.sorted_mergeSort
        (fun a b c hab hbc => by
          simp only [decide_eq_true_eq] at hab hbc ⊢
          omega)
        (fun a b => by
          simp only [Bool.or_eq_true, decide_eq_true_eq]
          omega)
        (index.map (fun r => (r, d r.vec (embed q))))
    have hp := hsorted.sublist (List.take_sublist k _)
    exact hp.imp (fun hab => by simpa using hab)

/-- Witness for C3: `k = 1` over a two-record index returns exactly
`min 1 2 = 1` result. -/
theorem search_returns_min_k_witness :
    (vectorSearch (fun _ => [0]) (fun _ _ => 0)
        [⟨⟨"c1", "s1"⟩, [1]⟩, ⟨⟨"c2", "s2"⟩, [2]⟩] "q" 1).length =
      min 1 ([⟨⟨"c1", "s1"⟩, [1]⟩, ⟨⟨"c2", "s2"⟩, [2]⟩] :
        List EmbeddingRecord).length ∧
    (vectorSearch (fun _ => [0]) (fun _ _ => 0)
        [⟨⟨"c1", "s1"⟩, [1]⟩, ⟨⟨"c2", "s2"⟩, [2]⟩] "q" 1).length ≤ 1 ∧
    List.Pairwise (fun a b => a.2 ≤ b.2)
      (vectorSearch (fun _ => [0]) (fun _ _ => 0)
        [⟨⟨"c1", "s1"⟩, [1]⟩, ⟨⟨"c2", "s2"⟩, [2]⟩] "q" 1) :=
  search_returns_min_k (fun _ => [0]) (fun _ _ => 0)
    [⟨⟨"c1", "s1"⟩, [1]⟩, ⟨⟨"c2", "s2"⟩, [2]⟩] "q" 1 (by decide)

/-- C6 (spec-modelled): for `0 < overlap < chunk_size` the Splitter
yields an ordered sequence of non-empty chunks in which each chunk after
the first starts with exactly the last `overlap` characters of its
predecessor, and concatenating the chunks with the overlaps removed
reconstructs the input text — so the chunks cover the full input. -/
theorem splitter_contract (cs ov : Nat) (t : List Char) (hov : 0 < ov)
    (hcs : ov < cs) :
    (∀ c ∈ splitText cs ov t, c ≠ []) ∧
    List.Chain' (fun a b => b.take ov = a.drop (a.length - ov))
      (splitText cs ov t) ∧
    reassemble ov (splitText cs ov t) = t :=
  ⟨splitText_chunks_ne_nil cs ov (by omega) t,
   splitText_overlap cs ov hov hcs t,
   reassemble_splitText cs ov hov hcs t⟩

/-- Witness for C6 at `chunk_size = 5`, `overlap = 2` on a concrete
string. -/
theorem splitter_contract_witness :
    (∀ c ∈ splitText 5 2 "hello world".data, c ≠ []) ∧
    List.Chain' (fun a b => b.take 2 = a.drop (a.length - 2))
      (splitText 5 2 "hello world".data) ∧
    reassemble 2 (splitText 5 2 "hello world".data) = "hello world".data :=
  splitter_contract 5 2 "hello world".data (by decide) (by decide)

end AKAS
